import Mathlib

/-!
Verification of the horgh/cloudflare dynamic-DNS updater.

The development is a shallow embedding of the update tool (`main`, `getArgs`,
`dnsLookupHost`, `getNameserver`, `updateIP`) and of the provider client
(`ListZones`, `ListDNSRecords`, `UpdateDNSRecord`, `PurgeAllFiles`).

Modelling conventions:
  * Go strings are `String`, Go `int` is `Int`, Go slices are `List`.
  * `net.IP` is modelled as the opaque structure `GoIP`, carrying only the
    text produced by its `String()` method; the stdlib predicate
    `net.IP.Equal` is passed around as an explicit function parameter
    `ipEqual`, and `net.ParseIP` as `parseIP`, since both live outside this
    repository.
  * Network I/O is modelled by oracle environments: each outbound call is
    replaced by a pre-supplied response, and the calls a flow performs are
    collected in a trace so that "no call is made" is a statement about the
    trace.
  * The Go field `Type` of `DNSRecord` is rendered `Type'` because `Type`
    is reserved in Lean.
-/

/-- A zone, as decoded from the List Zones response (`Zone` in the client). -/
structure Zone where
  ID : String
  Name : String
deriving DecidableEq, Repr

/-- A DNS record, with the twelve fields of the Go struct `DNSRecord`,
in declaration order. -/
structure DNSRecord where
  ID : String
  Type' : String
  Name : String
  Content : String
  Proxiable : Bool
  Proxied : Bool
  TTL : Int
  Locked : Bool
  ZoneID : String
  ZoneName : String
  CreatedOn : String
  ModifiedOn : String
deriving DecidableEq, Repr

/-- `net.IP`, reduced to the text its `String()` method yields; the update
flow only ever consumes an IP through `String()` and `Equal`. -/
structure GoIP where
  str : String
deriving DecidableEq, Repr

/-- Splitting a character list at every separator, keeping empty pieces:
the semantics of the Go split used by the resolver scan (kernel-reducible
replacement for the library string splitter). -/
def splitByAux (p : Char → Bool) : List Char → List Char → List String
  | [], acc => [String.mk acc.reverse]
  | c :: rest, acc =>
    if p c then String.mk acc.reverse :: splitByAux p rest []
    else splitByAux p rest (c :: acc)

/-- Go `strings.Split` with a one-character separator given by `p`. -/
def goSplit (p : Char → Bool) (s : String) : List String :=
  splitByAux p s.toList []

/-- Go `strings.TrimSpace`: drop leading and trailing whitespace. -/
def goTrim (s : String) : String :=
  String.mk (((s.toList.dropWhile Char.isWhitespace).reverse.dropWhile
    Char.isWhitespace).reverse)

/-- `getNameserver`, reading the first nameserver directive: lines of the
resolver configuration file are scanned in order; a line is skipped when,
after trimming, it is empty or its first character is the comment marker;
otherwise the line is split on single space characters and accepted exactly
when that yields two pieces whose first is the word nameserver, in which case
the second piece is returned. -/
def getNameserver : List String → Except String String
  | [] => Except.error "No resolver found"
  | line :: rest =>
    let text := goTrim line
    if text = "" || text.toList.head? = some '#' then getNameserver rest
    else
      match goSplit (fun c => c = ' ') text with
      | [first, second] =>
        if first = "nameserver" then Except.ok second else getNameserver rest
      | _ => getNameserver rest

/-- Non-recursive characterization of the resolver scan: the first line that,
after trimming, is not a comment or blank and splits on single spaces into
exactly a nameserver directive and one value. -/
def firstNameserverDirective (lines : List String) : Option String :=
  lines.findSome? fun line =>
    let text := goTrim line
    if text = "" || text.toList.head? = some '#' then none
    else
      match goSplit (fun c => c = ' ') text with
      | [first, second] => if first = "nameserver" then some second else none
      | _ => none

/-- The claim's reading of a resolver line: trim, then break into maximal
whitespace-free tokens (any whitespace characters separate tokens). -/
def wsTokens (text : String) : List String :=
  (goSplit Char.isWhitespace (goTrim text)).filter (fun s => s ≠ "")

/-- An answer-section resource record: either an A record carrying an
address (the Go type assertion target) or a record of any other type. -/
inductive DNSAnswer where
  | A (addr : GoIP)
  | other (rtype : Nat)
deriving DecidableEq, Repr

/-- The decoded DNS response message: response code and answer section. -/
structure DNSMsg where
  rcode : Nat
  answer : List DNSAnswer
deriving DecidableEq, Repr

/-- The answer-extraction loop of `dnsLookupHost`: walk the answer section,
keep the address of every record whose type assertion to A succeeds, skip the
rest. -/
def extractARecords : List DNSAnswer → List GoIP
  | [] => []
  | DNSAnswer.A addr :: rest => addr :: extractARecords rest
  | DNSAnswer.other _ :: rest => extractARecords rest

/-- The A-record projection used to characterize `extractARecords`. -/
def answerToA : DNSAnswer → Option GoIP
  | DNSAnswer.A addr => some addr
  | DNSAnswer.other _ => none

/-- `dnsLookupHost`: find a nameserver from the resolver configuration, send
the query (the oracle `exch` stands for `dns.Exchange`), reject non-success
response codes (success is code 0), then extract the A answers.
`rcodeToString` stands for the response-code-name table of the DNS library. -/
def dnsLookupHost (rcodeToString : Nat → String) (resolvLines : List String)
    (exch : Except String DNSMsg) : Except String (List GoIP) :=
  match getNameserver resolvLines with
  | Except.error e =>
    Except.error ("Unable to determine a nameserver: " ++ e)
  | Except.ok _ =>
    match exch with
    | Except.error e => Except.error ("Unable to perform lookup: " ++ e)
    | Except.ok msg =>
      if msg.rcode ≠ 0 then
        Except.error ("Lookup problem: " ++ rcodeToString msg.rcode)
      else
        Except.ok (extractARecords msg.answer)

/-- A single error from an API response envelope (`Error` in the client). -/
structure CFError where
  code : Int
  message : String
deriving DecidableEq, Repr

/-- The generic API response envelope (`Response` in the client), as decoded
from a response body. -/
structure GoResponse where
  success : Bool
  errors : List CFError
deriving DecidableEq, Repr

/-- `errorsToError`: concatenate the API error list into one message. -/
def errorsToError (apiErrors : List CFError) : String :=
  apiErrors.foldl
    (fun msg e =>
      (if msg.length > 0 then msg ++ ", " else msg) ++
        "Code " ++ toString e.code ++ ": " ++ e.message)
    ""

/-- An outbound HTTP request, kept structured: method, the path segments
under the fixed endpoint, the query parameters added to the URL values, and
the JSON body rendered as field-name, value pairs. -/
structure HTTPReq where
  method : String
  path : List String
  query : List (String × String)
  body : Option (List (String × String))
deriving DecidableEq, Repr

/-- Rendering of a Go bool inside a JSON payload. -/
def jsonBool (b : Bool) : String :=
  if b then "true" else "false"

/-- `json.Marshal` of a `DNSRecord`: the twelve fields under their struct
tags, in struct declaration order. -/
def marshalDNSRecord (r : DNSRecord) : List (String × String) :=
  [("id", r.ID), ("type", r.Type'), ("name", r.Name),
   ("content", r.Content), ("proxiable", jsonBool r.Proxiable),
   ("proxied", jsonBool r.Proxied), ("ttl", toString r.TTL),
   ("locked", jsonBool r.Locked), ("zone_id", r.ZoneID),
   ("zone_name", r.ZoneName), ("created_on", r.CreatedOn),
   ("modified_on", r.ModifiedOn)]

/-- The URL values built by `ListZones`, in the order the code adds them:
name when non-blank; status always, defaulting to active when blank; page
and per_page when positive; order, direction and match when non-blank. -/
def listZonesValues (name status : String) (page perPage : Int)
    (order direction mtch : String) : List (String × String) :=
  (if name.length > 0 then [("name", name)] else []) ++
  (if status.length = 0 then [("status", "active")]
   else [("status", status)]) ++
  (if page > 0 then [("page", toString page)] else []) ++
  (if perPage > 0 then [("per_page", toString perPage)] else []) ++
  (if order.length > 0 then [("order", order)] else []) ++
  (if direction.length > 0 then [("direction", direction)] else []) ++
  (if mtch.length > 0 then [("match", mtch)] else [])

/-- The URL values built by `ListDNSRecords`: every parameter is sent only
when non-blank (strings) or positive (integers). -/
def listDNSRecordsValues (recordType name content : String)
    (page perPage : Int) (order direction mtch : String) :
    List (String × String) :=
  (if recordType.length > 0 then [("type", recordType)] else []) ++
  (if name.length > 0 then [("name", name)] else []) ++
  (if content.length > 0 then [("content", content)] else []) ++
  (if page > 0 then [("page", toString page)] else []) ++
  (if perPage > 0 then [("per_page", toString perPage)] else []) ++
  (if order.length > 0 then [("order", order)] else []) ++
  (if direction.length > 0 then [("direction", direction)] else []) ++
  (if mtch.length > 0 then [("match", mtch)] else [])

/-- The request `ListZones` issues. -/
def listZonesReq (name status : String) (page perPage : Int)
    (order direction mtch : String) : HTTPReq :=
  { method := "GET", path := ["zones"],
    query := listZonesValues name status page perPage order direction mtch,
    body := none }

/-- The request `ListDNSRecords` issues once its zone-ID guard has passed. -/
def listDNSRecordsReq (zoneID recordType name content : String)
    (page perPage : Int) (order direction mtch : String) : HTTPReq :=
  { method := "GET", path := ["zones", zoneID, "dns_records"],
    query := listDNSRecordsValues recordType name content page perPage
      order direction mtch,
    body := none }

/-- The request `UpdateDNSRecord` issues: a PUT on the record's zone and
record identifiers, whose body is the full serialized record. -/
def updateDNSRecordReq (record : DNSRecord) : HTTPReq :=
  { method := "PUT",
    path := ["zones", record.ZoneID, "dns_records", record.ID],
    query := [], body := some (marshalDNSRecord record) }

/-- The request `PurgeAllFiles` issues once its zone-ID guard has passed. -/
def purgeAllFilesReq (zoneID : String) : HTTPReq :=
  { method := "DELETE", path := ["zones", zoneID, "purge_cache"],
    query := [], body := some [("purge_everything", "true")] }

/-- The decoded List Zones envelope (`ListZoneResponse` in the client). -/
structure ListZoneResponse where
  success : Bool
  errors : List CFError
  zones : List Zone
deriving DecidableEq, Repr

/-- The decoded List DNS envelope (`ListDNSResponse` in the client). -/
structure ListDNSResponse where
  success : Bool
  errors : List CFError
  records : List DNSRecord
deriving DecidableEq, Repr

/-- `ListZones`: build the URL values, issue exactly one request (the oracle
`http` supplies the decoded envelope), check the success flag, and return the
zones of the envelope. The second component is the trace of requests
issued. -/
def ListZones (http : HTTPReq → Except String ListZoneResponse)
    (name status : String) (page perPage : Int)
    (order direction mtch : String) :
    Except String (List Zone) × List HTTPReq :=
  let req := listZonesReq name status page perPage order direction mtch
  match http req with
  | Except.error e => (Except.error ("API request failure: " ++ e), [req])
  | Except.ok resp =>
    if !resp.success then
      (Except.error ("list zone error: " ++ errorsToError resp.errors),
       [req])
    else (Except.ok resp.zones, [req])

/-- `ListDNSRecords`: the guard rejects an empty zone ID before any request;
otherwise exactly one request goes out, the decoded envelope is checked for
success, and the records of the envelope are returned. -/
def ListDNSRecords (http : HTTPReq → Except String ListDNSResponse)
    (zoneID recordType name content : String) (page perPage : Int)
    (order direction mtch : String) :
    Except String (List DNSRecord) × List HTTPReq :=
  if zoneID.length = 0 then
    (Except.error
      "you must provide a zone ID. Use ListZones() to find one", [])
  else
    let req := listDNSRecordsReq zoneID recordType name content page perPage
      order direction mtch
    match http req with
    | Except.error e => (Except.error ("API request failure: " ++ e), [req])
    | Except.ok resp =>
      if !resp.success then
        (Except.error
          ("list DNS records error: " ++ errorsToError resp.errors), [req])
      else (Except.ok resp.records, [req])

/-- `UpdateDNSRecord`: no guard at all — the record is serialized, the URL is
built from whatever zone and record identifiers the record carries, and the
request is issued unconditionally. -/
def UpdateDNSRecord (http : HTTPReq → Except String GoResponse)
    (record : DNSRecord) : Except String Unit × List HTTPReq :=
  let req := updateDNSRecordReq record
  match http req with
  | Except.error e => (Except.error ("API request failure: " ++ e), [req])
  | Except.ok resp =>
    if !resp.success then
      (Except.error ("update DNS record error: " ++ errorsToError resp.errors
        ++ ". Payload: " ++ toString (repr (marshalDNSRecord record))),
       [req])
    else (Except.ok (), [req])

/-- `PurgeAllFiles`: rejects an empty zone ID before any request; otherwise
issues exactly one purge request. -/
def PurgeAllFiles (http : HTTPReq → Except String GoResponse)
    (zoneID : String) : Except String Unit × List HTTPReq :=
  if zoneID = "" then
    (Except.error "you must provide a zone ID", [])
  else
    let req := purgeAllFilesReq zoneID
    match http req with
    | Except.error e => (Except.error ("API request failure: " ++ e), [req])
    | Except.ok resp =>
      if !resp.success then
        (Except.error ("purge error: " ++ errorsToError resp.errors), [req])
      else (Except.ok (), [req])

/-- A call made by the update flow against the provider client, with the
argument values the flow passes. -/
inductive APICall where
  | listZones (name status : String) (page perPage : Int)
      (order direction mtch : String)
  | listDNSRecords (zoneID recordType name content : String)
      (page perPage : Int) (order direction mtch : String)
  | updateDNSRecord (record : DNSRecord)
deriving DecidableEq, Repr

/-- The outcome of one run of `updateIP`, one constructor per exit point of
the function. -/
inductive UpdateResult where
  | errListZones (e : String)
  | errListRecords (e : String)
  | errRecordNotFound
  | errMultipleRecords
  | okAlreadyUpToDate
  | errUpdate (e : String)
  | okUpdated
deriving DecidableEq, Repr

/-- The Go return value of `updateIP` for each outcome, with the wrapping
messages of the source. -/
def UpdateResult.toGo : UpdateResult → Except String Unit
  | UpdateResult.errListZones e =>
    Except.error ("Unable to list zones: " ++ e)
  | UpdateResult.errListRecords e =>
    Except.error ("Unable to list DNS records: " ++ e)
  | UpdateResult.errRecordNotFound =>
    Except.error "Record not found. No update performed."
  | UpdateResult.errMultipleRecords =>
    Except.error "Multiple matching records found. Unable to perform update."
  | UpdateResult.okAlreadyUpToDate => Except.ok ()
  | UpdateResult.errUpdate e =>
    Except.error ("Unable to update DNS record: " ++ e)
  | UpdateResult.okUpdated => Except.ok ()

/-- Responses of the provider client as seen by `updateIP`: one oracle per
client call the flow makes. -/
structure CFEnv where
  listZonesResp : Except String (List Zone)
  listDNSRecordsResp : String → Except String (List DNSRecord)
  updateDNSRecordResp : DNSRecord → Except String Unit

/-- The defensive re-filter of `updateIP`: a listed record counts as a match
when its name equals the hostname and its type equals the A record type. -/
def recordMatches (hostname : String) (r : DNSRecord) : Bool :=
  r.Name == hostname && r.Type' == "A"

/-- The zone loop of `updateIP`: for each zone, list its DNS records
(filtered server-side by type A and the hostname), abort on a listing error,
and accumulate the records passing the defensive re-filter, together with
the trace of listing calls. -/
def collectMatching (env : CFEnv) (hostname : String) :
    List Zone → Except String (List DNSRecord) × List APICall
  | [] => (Except.ok [], [])
  | zone :: rest =>
    let call := APICall.listDNSRecords zone.ID "A" hostname "" (-1) (-1)
      "" "" ""
    match env.listDNSRecordsResp zone.ID with
    | Except.error e => (Except.error e, [call])
    | Except.ok records =>
      let ms := records.filter (recordMatches hostname)
      let res := collectMatching env hostname rest
      match res.1 with
      | Except.error e => (Except.error e, call :: res.2)
      | Except.ok more => (Except.ok (ms ++ more), call :: res.2)

/-- The records `updateIP` accumulates when every listing succeeds: per
zone, the listed records passing the defensive re-filter, concatenated in
zone order. -/
def matchingRecords (hostname : String) (zones : List Zone)
    (recs : String → List DNSRecord) : List DNSRecord :=
  (zones.map (fun z => (recs z.ID).filter (recordMatches hostname))).flatten

/-- An environment in which both listing calls always succeed. -/
def okEnv (zones : List Zone) (recs : String → List DNSRecord)
    (upd : DNSRecord → Except String Unit) : CFEnv :=
  { listZonesResp := Except.ok zones,
    listDNSRecordsResp := fun zid => Except.ok (recs zid),
    updateDNSRecordResp := upd }

/-- The mutating calls of a trace: the records passed to update calls. -/
def updatesOf (calls : List APICall) : List DNSRecord :=
  calls.filterMap fun c =>
    match c with
    | APICall.updateDNSRecord r => some r
    | _ => none

/-- `updateIP`: list the zones of the domain, accumulate matching A records
across all zones, require exactly one match, skip the update when its
content already equals the desired IP text, and otherwise update the record
with only its content replaced. The second component is the trace of client
calls made. -/
def updateIP (env : CFEnv) (domain hostname : String) (ipStr : String) :
    UpdateResult × List APICall :=
  let zonesCall := APICall.listZones domain "" (-1) (-1) "" "" ""
  match env.listZonesResp with
  | Except.error e => (UpdateResult.errListZones e, [zonesCall])
  | Except.ok zones =>
    let collected := collectMatching env hostname zones
    match collected.1 with
    | Except.error e =>
      (UpdateResult.errListRecords e, zonesCall :: collected.2)
    | Except.ok matching =>
      match matching with
      | [] => (UpdateResult.errRecordNotFound, zonesCall :: collected.2)
      | record :: rest =>
        if rest.length > 0 then
          (UpdateResult.errMultipleRecords, zonesCall :: collected.2)
        else if record.Content == ipStr then
          (UpdateResult.okAlreadyUpToDate, zonesCall :: collected.2)
        else
          let record' := { record with Content := ipStr }
          let uCall := APICall.updateDNSRecord record'
          match env.updateDNSRecordResp record' with
          | Except.error e =>
            (UpdateResult.errUpdate e, zonesCall :: collected.2 ++ [uCall])
          | Except.ok _ =>
            (UpdateResult.okUpdated, zonesCall :: collected.2 ++ [uCall])

/-- The parsed command line arguments (`Args` in the tool). -/
structure Args where
  Email : String
  Domain : String
  Hostname : String
  KeyFile : String
  IP : Option GoIP
  OnlyIfDifferent : Bool
  Verbose : Bool
deriving Repr

/-- The raw flag values as handed to `getArgs` by the flag package. -/
structure ArgsInput where
  email : String
  domain : String
  hostname : String
  keyFile : String
  ipString : String
  onlyIfDifferent : Bool
  verbose : Bool
deriving Repr

/-- `getArgs`: validate the flags in order. The IP flag is parsed with the
stdlib parser (the oracle `parseIP` stands for the library IP parser, which
accepts both address families); a non-empty flag value that the parser
rejects is a fatal error, and a parsed value is stored unchanged, with no
family check of its own. -/
def getArgs (parseIP : String → Option GoIP) (inp : ArgsInput) :
    Except String Args :=
  if inp.email.length = 0 then
    Except.error "You must provide an email."
  else if inp.domain.length = 0 then
    Except.error "You must provide a domain."
  else if inp.hostname.length = 0 then
    Except.error "You must provide a hostname."
  else if inp.keyFile.length = 0 then
    Except.error "You must provide an API key file."
  else if inp.ipString.length > 0 then
    match parseIP inp.ipString with
    | none => Except.error "Invalid IP address."
    | some ip =>
      Except.ok ⟨inp.email, inp.domain, inp.hostname, inp.keyFile, some ip,
        inp.onlyIfDifferent, inp.verbose⟩
  else
    Except.ok ⟨inp.email, inp.domain, inp.hostname, inp.keyFile, none,
      inp.onlyIfDifferent, inp.verbose⟩

/-- An observable side effect of one run of the tool. -/
inductive Effect where
  | icanhazipLookup
  | dnsQuery
  | api (call : APICall)
deriving DecidableEq, Repr

/-- The IP-choice step of `main`: the flag value wins when present, with no
lookup; otherwise the external lookup service is consulted. The oracle
`lookup` stands for the external lookup call; the trace records whether it
was invoked. -/
def determineIP (argIP : Option GoIP) (lookup : Except String GoIP) :
    Except String GoIP × List Effect :=
  match argIP with
  | some ip => (Except.ok ip, [])
  | none => (lookup, [Effect.icanhazipLookup])

/-- Everything outside this process that one run of `main` can observe. -/
structure MainEnv where
  parseIP : String → Option GoIP
  keyResult : Except String String
  lookupResult : Except String GoIP
  ipEqual : GoIP → GoIP → Bool
  rcodeToString : Nat → String
  resolvLines : List String
  exchange : Except String DNSMsg
  cf : CFEnv

/-- The exit taken by one run of `main`, one constructor per exit point. -/
inductive MainOutcome where
  | argsError (e : String)
  | keyError (e : String)
  | lookupError (e : String)
  | updateFlow (r : UpdateResult)
  | dnsError (e : String)
  | noIPsFound
  | tooManyIPs (n : Nat)
  | noopDone
deriving DecidableEq, Repr

/-- `main`: parse flags, read the key, choose the desired IP, then either
update unconditionally or, in change-only mode, query DNS first, require
exactly one current A record, and skip the provider entirely when it already
equals the desired IP. The second component is the trace of effects. -/
def mainFlow (env : MainEnv) (inp : ArgsInput) :
    MainOutcome × List Effect :=
  match getArgs env.parseIP inp with
  | Except.error e => (MainOutcome.argsError e, [])
  | Except.ok args =>
    match env.keyResult with
    | Except.error e => (MainOutcome.keyError e, [])
    | Except.ok _ =>
      let det := determineIP args.IP env.lookupResult
      match det.1 with
      | Except.error e => (MainOutcome.lookupError e, det.2)
      | Except.ok ip =>
        if !args.OnlyIfDifferent then
          let u := updateIP env.cf args.Domain args.Hostname ip.str
          (MainOutcome.updateFlow u.1, det.2 ++ u.2.map Effect.api)
        else
          let effs := det.2 ++ [Effect.dnsQuery]
          match dnsLookupHost env.rcodeToString env.resolvLines
              env.exchange with
          | Except.error e => (MainOutcome.dnsError e, effs)
          | Except.ok ips =>
            match ips with
            | [] => (MainOutcome.noIPsFound, effs)
            | currentIP :: more =>
              if more.length > 0 then
                (MainOutcome.tooManyIPs (more.length + 1), effs)
              else if env.ipEqual currentIP ip then
                (MainOutcome.noopDone, effs)
              else
                let u := updateIP env.cf args.Domain args.Hostname ip.str
                (MainOutcome.updateFlow u.1, effs ++ u.2.map Effect.api)

/-- The provider API calls of an effect trace. -/
def apiCallsOf (effects : List Effect) : List APICall :=
  effects.filterMap fun e =>
    match e with
    | Effect.api c => some c
    | _ => none

/-- The listing calls the zone loop makes, one per zone, in zone order. -/
def listCallsTrace (hostname : String) (zones : List Zone) : List APICall :=
  zones.map fun z =>
    APICall.listDNSRecords z.ID "A" hostname "" (-1) (-1) "" "" ""

/-- C5 (amended): for every input file, after skipping lines blank or
starting with the comment marker after trimming, the first line that splits
on single space characters into exactly two pieces whose first piece is the
literal nameserver word is recognized and its second piece returned; with no
such line the function returns the no-resolver-found error. -/
theorem getNameserver_eq_firstDirective (lines : List String) :
    getNameserver lines =
      (match firstNameserverDirective lines with
       | some ns => Except.ok ns
       | none => Except.error "No resolver found") := by
  induction lines with
  | nil => rfl
  | cons line rest ih =>
    simp only [getNameserver, firstNameserverDirective, List.findSome?]
    by_cases hskip : goTrim line = "" || (goTrim line).toList.head? = some '#'
    · simp only [hskip, if_true]
      simpa [firstNameserverDirective] using ih
    · simp only [hskip, if_false]
      cases hsplit : goSplit (fun c => c = ' ') (goTrim line) with
      | nil => simpa [firstNameserverDirective, hsplit] using ih
      | cons a tl =>
        cases tl with
        | nil => simpa [firstNameserverDirective, hsplit] using ih
        | cons b tl2 =>
          cases tl2 with
          | nil =>
            by_cases hns : a = "nameserver"
            · simp [hns]
            · simpa [firstNameserverDirective, hsplit, hns] using ih
          | cons c tl3 => simpa [firstNameserverDirective, hsplit] using ih

/-- C5 counterexample: the line between the quotes below consists of exactly
two whitespace-separated tokens, the first being the word nameserver (the
tokens are separated by two spaces), so the claim requires the second token
to be returned; the code, which splits on single spaces, reports no resolver
instead. -/
theorem getNameserver_claim_counterexample :
    wsTokens "nameserver  1.2.3.4" = ["nameserver", "1.2.3.4"] ∧
    getNameserver ["nameserver  1.2.3.4"] =
      Except.error "No resolver found" ∧
    (Except.error "No resolver found" : Except String String) ≠
      Except.ok "1.2.3.4" :=
  ⟨by decide, rfl, by simp⟩

theorem extractARecords_eq_filterMap (l : List DNSAnswer) :
    extractARecords l = l.filterMap answerToA := by
  induction l with
  | nil => rfl
  | cons a rest ih => cases a <;> simp [extractARecords, answerToA, ih]

theorem updatesOf_nil : updatesOf [] = [] := rfl

theorem updatesOf_append (a b : List APICall) :
    updatesOf (a ++ b) = updatesOf a ++ updatesOf b := by
  simp [updatesOf]

theorem updatesOf_cons_listZones (n s : String) (p pp : Int)
    (o d m : String) (t : List APICall) :
    updatesOf (APICall.listZones n s p pp o d m :: t) = updatesOf t := by
  simp [updatesOf]

theorem updatesOf_cons_listDNSRecords (z rt n c : String) (p pp : Int)
    (o d m : String) (t : List APICall) :
    updatesOf (APICall.listDNSRecords z rt n c p pp o d m :: t) =
      updatesOf t := by
  simp [updatesOf]

theorem updatesOf_cons_update (r : DNSRecord) (t : List APICall) :
    updatesOf (APICall.updateDNSRecord r :: t) = r :: updatesOf t := by
  simp [updatesOf]

theorem updatesOf_listCallsTrace (hostname : String) (zones : List Zone) :
    updatesOf (listCallsTrace hostname zones) = [] := by
  induction zones with
  | nil => rfl
  | cons z rest ih =>
    simpa [listCallsTrace, updatesOf_cons_listDNSRecords] using ih

theorem updatesOf_collectMatching (env : CFEnv) (hostname : String)
    (zs : List Zone) :
    updatesOf (collectMatching env hostname zs).2 = [] := by
  induction zs with
  | nil => rfl
  | cons z rest ih =>
    simp only [collectMatching]
    cases h : env.listDNSRecordsResp z.ID with
    | error e => simp [updatesOf]
    | ok records =>
      cases h2 : (collectMatching env hostname rest).1 with
      | error e =>
        simpa [updatesOf_cons_listDNSRecords] using ih
      | ok more =>
        simpa [updatesOf_cons_listDNSRecords] using ih

theorem okEnv_listZonesResp (zones : List Zone)
    (recs : String → List DNSRecord) (upd : DNSRecord → Except String Unit) :
    (okEnv zones recs upd).listZonesResp = Except.ok zones := rfl

theorem okEnv_listDNSRecordsResp (zones : List Zone)
    (recs : String → List DNSRecord) (upd : DNSRecord → Except String Unit)
    (zid : String) :
    (okEnv zones recs upd).listDNSRecordsResp zid = Except.ok (recs zid) :=
  rfl

theorem okEnv_updateDNSRecordResp (zones : List Zone)
    (recs : String → List DNSRecord) (upd : DNSRecord → Except String Unit)
    (r : DNSRecord) :
    (okEnv zones recs upd).updateDNSRecordResp r = upd r := rfl

theorem collectMatching_okEnv (zones0 : List Zone)
    (recs : String → List DNSRecord) (upd : DNSRecord → Except String Unit)
    (hostname : String) (zs : List Zone) :
    collectMatching (okEnv zones0 recs upd) hostname zs =
      (Except.ok (matchingRecords hostname zs recs),
       listCallsTrace hostname zs) := by
  induction zs with
  | nil => simp [collectMatching, matchingRecords, listCallsTrace]
  | cons z rest ih =>
    simp [collectMatching, okEnv_listDNSRecordsResp, matchingRecords,
      listCallsTrace, ih]

theorem updateIP_okEnv_eq (domain hostname ipStr : String)
    (zones : List Zone) (recs : String → List DNSRecord)
    (upd : DNSRecord → Except String Unit) :
    updateIP (okEnv zones recs upd) domain hostname ipStr =
      (match matchingRecords hostname zones recs with
       | [] =>
         (UpdateResult.errRecordNotFound,
          APICall.listZones domain "" (-1) (-1) "" "" "" ::
            listCallsTrace hostname zones)
       | record :: rest =>
         if rest.length > 0 then
           (UpdateResult.errMultipleRecords,
            APICall.listZones domain "" (-1) (-1) "" "" "" ::
              listCallsTrace hostname zones)
         else if record.Content == ipStr then
           (UpdateResult.okAlreadyUpToDate,
            APICall.listZones domain "" (-1) (-1) "" "" "" ::
              listCallsTrace hostname zones)
         else
           match upd { record with Content := ipStr } with
           | Except.error e =>
             (UpdateResult.errUpdate e,
              APICall.listZones domain "" (-1) (-1) "" "" "" ::
                (listCallsTrace hostname zones ++
                  [APICall.updateDNSRecord { record with Content := ipStr }]))
           | Except.ok _ =>
             (UpdateResult.okUpdated,
              APICall.listZones domain "" (-1) (-1) "" "" "" ::
                (listCallsTrace hostname zones ++
                  [APICall.updateDNSRecord
                    { record with Content := ipStr }]))) := by
  simp only [updateIP, okEnv_listZonesResp, collectMatching_okEnv,
    okEnv_updateDNSRecordResp]
  cases matchingRecords hostname zones recs with
  | nil => rfl
  | cons record rest =>
    by_cases hlen : rest.length > 0
    · simp [hlen]
    · by_cases hc : record.Content == ipStr
      · simp [hlen, hc]
      · cases hupd : upd { record with Content := ipStr } <;>
          simp [hlen, hc, hupd]

/-- C1: after listing zones for the domain and listing DNS records per zone,
a record is selected for mutation if and only if exactly one accumulated
record has name equal to the hostname and type equal to A; zero matches
yields the record-not-found error and two or more the
multiple-matching-records error, and in both error cases no update call is
made. -/
theorem updateIP_requires_unique_match (domain hostname ipStr : String)
    (zones : List Zone) (recs : String → List DNSRecord)
    (upd : DNSRecord → Except String Unit)
    (res : UpdateResult) (calls : List APICall)
    (hrun : updateIP (okEnv zones recs upd) domain hostname ipStr =
      (res, calls)) :
    ((matchingRecords hostname zones recs).length = 0 →
       res = UpdateResult.errRecordNotFound ∧
       res.toGo = Except.error "Record not found. No update performed." ∧
       updatesOf calls = []) ∧
    ((matchingRecords hostname zones recs).length > 1 →
       res = UpdateResult.errMultipleRecords ∧
       res.toGo = Except.error
         "Multiple matching records found. Unable to perform update." ∧
       updatesOf calls = []) ∧
    ((res ≠ UpdateResult.errRecordNotFound ∧
        res ≠ UpdateResult.errMultipleRecords) ↔
      (matchingRecords hostname zones recs).length = 1) := by
  rw [updateIP_okEnv_eq] at hrun
  cases hms : matchingRecords hostname zones recs with
  | nil =>
    rw [hms] at hrun
    simp only [Prod.mk.injEq] at hrun
    obtain ⟨h1, h2⟩ := hrun
    subst h1; subst h2
    simp [UpdateResult.toGo, updatesOf_cons_listZones,
      updatesOf_listCallsTrace]
  | cons r rest =>
    rw [hms] at hrun
    by_cases hlen : rest.length > 0
    · simp only [hlen, if_true, Prod.mk.injEq] at hrun
      obtain ⟨h1, h2⟩ := hrun
      subst h1; subst h2
      refine ⟨fun h => by simp at h, fun _ => ⟨rfl, rfl, ?_⟩, ?_⟩
      · simp [updatesOf_cons_listZones, updatesOf_listCallsTrace]
      · simp only [List.length_cons]
        constructor
        · rintro ⟨-, h2⟩
          simp at h2
        · intro h
          omega
    · have hrest : rest.length = 0 := by omega
      by_cases hc : r.Content == ipStr
      · simp only [hlen, if_false, hc, if_true, Prod.mk.injEq] at hrun
        obtain ⟨h1, h2⟩ := hrun
        subst h1; subst h2
        refine ⟨fun h => by simp at h, fun h => by simp at h; omega, ?_⟩
        simp [hrest]
      · cases hupd : upd { r with Content := ipStr } with
        | error e =>
          simp [hlen, hc, hupd, Prod.mk.injEq] at hrun
          obtain ⟨h1, h2⟩ := hrun
          subst h1; subst h2
          refine ⟨fun h => by simp at h, fun h => by simp at h; omega, ?_⟩
          simp [hrest]
        | ok u =>
          simp [hlen, hc, hupd, Prod.mk.injEq] at hrun
          obtain ⟨h1, h2⟩ := hrun
          subst h1; subst h2
          refine ⟨fun h => by simp at h, fun h => by simp at h; omega, ?_⟩
          simp [hrest]

theorem updateIP_requires_unique_match_witness :
    UpdateResult.errRecordNotFound = UpdateResult.errRecordNotFound ∧
    UpdateResult.errRecordNotFound.toGo =
      Except.error "Record not found. No update performed." ∧
    updatesOf [APICall.listZones "example.com" "" (-1) (-1) "" "" "",
      APICall.listDNSRecords "z1" "A" "host.example.com" "" (-1) (-1)
        "" "" ""] = [] :=
  (updateIP_requires_unique_match "example.com" "host.example.com"
      "203.0.113.5" [⟨"z1", "example.com"⟩] (fun _ => [])
      (fun _ => Except.ok ()) UpdateResult.errRecordNotFound
      [APICall.listZones "example.com" "" (-1) (-1) "" "" "",
       APICall.listDNSRecords "z1" "A" "host.example.com" "" (-1) (-1)
         "" "" ""] rfl).1 rfl

/-- C3: when the uniquely matched record's content already equals the
desired IP text, no update call is made and the run succeeds reporting the
record up to date; otherwise exactly one update call is made, and a second
run against listings that reflect that update makes zero update calls. -/
theorem updateIP_idempotent (domain hostname ipStr : String)
    (zones : List Zone) (recs : String → List DNSRecord)
    (upd : DNSRecord → Except String Unit) (r : DNSRecord)
    (hms : matchingRecords hostname zones recs = [r]) :
    (r.Content = ipStr →
       (updateIP (okEnv zones recs upd) domain hostname ipStr).1 =
           UpdateResult.okAlreadyUpToDate ∧
       (updateIP (okEnv zones recs upd) domain hostname ipStr).1.toGo =
           Except.ok () ∧
       updatesOf
           (updateIP (okEnv zones recs upd) domain hostname ipStr).2 =
         []) ∧
    (r.Content ≠ ipStr →
       updatesOf
           (updateIP (okEnv zones recs upd) domain hostname ipStr).2 =
         [{ r with Content := ipStr }]) ∧
    (∀ (zones2 : List Zone) (recs2 : String → List DNSRecord)
        (upd2 : DNSRecord → Except String Unit),
       matchingRecords hostname zones2 recs2 =
           [{ r with Content := ipStr }] →
       (updateIP (okEnv zones2 recs2 upd2) domain hostname ipStr).1 =
           UpdateResult.okAlreadyUpToDate ∧
       updatesOf
           (updateIP (okEnv zones2 recs2 upd2) domain hostname ipStr).2 =
         []) := by
  refine ⟨?_, ?_, ?_⟩
  · intro hc
    rw [updateIP_okEnv_eq, hms]
    simp [hc, UpdateResult.toGo, updatesOf_cons_listZones,
      updatesOf_listCallsTrace]
  · intro hc
    rw [updateIP_okEnv_eq, hms]
    have hcb : (r.Content == ipStr) = false := by
      simpa using hc
    cases hupd : upd { r with Content := ipStr } with
    | error e =>
      simp [hcb, hupd, updatesOf_cons_listZones, updatesOf_append,
        updatesOf_listCallsTrace, updatesOf_cons_update, updatesOf_nil]
    | ok u =>
      simp [hcb, hupd, updatesOf_cons_listZones, updatesOf_append,
        updatesOf_listCallsTrace, updatesOf_cons_update, updatesOf_nil]
  · intro zones2 recs2 upd2 hms2
    rw [updateIP_okEnv_eq, hms2]
    simp [updatesOf_cons_listZones, updatesOf_listCallsTrace]

theorem updateIP_idempotent_witness :
    let r : DNSRecord :=
      ⟨"r1", "A", "host.example.com", "203.0.113.9", true, false, 120,
        false, "z1", "example.com", "c", "m"⟩
    let recs : String → List DNSRecord := fun _ => [r]
    updatesOf
        (updateIP (okEnv [⟨"z1", "example.com"⟩] recs
            (fun _ => Except.ok ())) "example.com" "host.example.com"
          "203.0.113.5").2 =
      [{ r with Content := "203.0.113.5" }] :=
  (updateIP_idempotent "example.com" "host.example.com" "203.0.113.5"
      [⟨"z1", "example.com"⟩]
      (fun _ =>
        [⟨"r1", "A", "host.example.com", "203.0.113.9", true, false, 120,
          false, "z1", "example.com", "c", "m"⟩])
      (fun _ => Except.ok ())
      ⟨"r1", "A", "host.example.com", "203.0.113.9", true, false, 120,
        false, "z1", "example.com", "c", "m"⟩ rfl).2.1 (by decide)

/-- C4: when the update flow mutates the matched record, only the content
field changes; every other field of the record passed to the update call,
and of its serialized payload, is identical to the value received from the
listing. -/
theorem updateIP_frame_only_content (domain hostname ipStr : String)
    (zones : List Zone) (recs : String → List DNSRecord)
    (upd : DNSRecord → Except String Unit) (r : DNSRecord)
    (hms : matchingRecords hostname zones recs = [r])
    (hneq : r.Content ≠ ipStr) :
    updatesOf (updateIP (okEnv zones recs upd) domain hostname ipStr).2 =
      [{ r with Content := ipStr }] ∧
    ∀ rec ∈ updatesOf
        (updateIP (okEnv zones recs upd) domain hostname ipStr).2,
      rec.ID = r.ID ∧ rec.Type' = r.Type' ∧ rec.Name = r.Name ∧
      rec.Content = ipStr ∧ rec.Proxiable = r.Proxiable ∧
      rec.Proxied = r.Proxied ∧ rec.TTL = r.TTL ∧
      rec.Locked = r.Locked ∧ rec.ZoneID = r.ZoneID ∧
      rec.ZoneName = r.ZoneName ∧ rec.CreatedOn = r.CreatedOn ∧
      rec.ModifiedOn = r.ModifiedOn ∧
      (marshalDNSRecord rec).filter (fun kv => kv.1 ≠ "content") =
        (marshalDNSRecord r).filter (fun kv => kv.1 ≠ "content") ∧
      (updateDNSRecordReq rec).body = some (marshalDNSRecord rec) ∧
      (updateDNSRecordReq rec).path =
        ["zones", r.ZoneID, "dns_records", r.ID] := by
  have hupdates :
      updatesOf
          (updateIP (okEnv zones recs upd) domain hostname ipStr).2 =
        [{ r with Content := ipStr }] := by
    rw [updateIP_okEnv_eq, hms]
    have hcb : (r.Content == ipStr) = false := by simpa using hneq
    cases hupd : upd { r with Content := ipStr } with
    | error e =>
      simp [hcb, hupd, updatesOf_cons_listZones, updatesOf_append,
        updatesOf_listCallsTrace, updatesOf_cons_update, updatesOf_nil]
    | ok u =>
      simp [hcb, hupd, updatesOf_cons_listZones, updatesOf_append,
        updatesOf_listCallsTrace, updatesOf_cons_update, updatesOf_nil]
  refine ⟨hupdates, ?_⟩
  intro rec hrec
  rw [hupdates] at hrec
  have hrecr : rec = { r with Content := ipStr } := by
    simpa using hrec
  subst hrecr
  refine ⟨rfl, rfl, rfl, rfl, rfl, rfl, rfl, rfl, rfl, rfl, rfl, rfl,
    ?_, rfl, rfl⟩
  simp [marshalDNSRecord]

theorem updateIP_frame_only_content_witness :
    updatesOf
        (updateIP (okEnv [⟨"z1", "example.com"⟩]
            (fun _ =>
              [⟨"r1", "A", "host.example.com", "203.0.113.9", true, false,
                120, false, "z1", "example.com", "c", "m"⟩])
            (fun _ => Except.ok ())) "example.com" "host.example.com"
          "203.0.113.5").2 =
      [⟨"r1", "A", "host.example.com", "203.0.113.5", true, false, 120,
        false, "z1", "example.com", "c", "m"⟩] :=
  (updateIP_frame_only_content "example.com" "host.example.com"
      "203.0.113.5" [⟨"z1", "example.com"⟩]
      (fun _ =>
        [⟨"r1", "A", "host.example.com", "203.0.113.9", true, false, 120,
          false, "z1", "example.com", "c", "m"⟩])
      (fun _ => Except.ok ())
      ⟨"r1", "A", "host.example.com", "203.0.113.9", true, false, 120,
        false, "z1", "example.com", "c", "m"⟩ rfl (by decide)).1

/-- C6: for every DNS response, a non-success response code yields an error
carrying the response-code name; on success the function returns exactly the
A-typed answers in server order, others silently skipped, and an empty
answer section gives an empty list, not an error. -/
theorem dnsLookupHost_a_records (rts : Nat → String)
    (lines : List String) (ns : String)
    (hns : getNameserver lines = Except.ok ns) (msg : DNSMsg) :
    (msg.rcode ≠ 0 →
       dnsLookupHost rts lines (Except.ok msg) =
         Except.error ("Lookup problem: " ++ rts msg.rcode)) ∧
    (msg.rcode = 0 →
       dnsLookupHost rts lines (Except.ok msg) =
         Except.ok (msg.answer.filterMap answerToA)) ∧
    (msg.rcode = 0 → msg.answer = [] →
       dnsLookupHost rts lines (Except.ok msg) = Except.ok []) := by
  refine ⟨?_, ?_, ?_⟩
  · intro h
    simp [dnsLookupHost, hns, h]
  · intro h
    simp [dnsLookupHost, hns, h, extractARecords_eq_filterMap]
  · intro h ha
    simp [dnsLookupHost, hns, h, ha, extractARecords]

theorem dnsLookupHost_a_records_witness :
    dnsLookupHost (fun _ => "SERVFAIL") ["nameserver 1.2.3.4"]
        (Except.ok ⟨0, [DNSAnswer.other 5, DNSAnswer.A ⟨"203.0.113.9"⟩,
          DNSAnswer.other 28, DNSAnswer.A ⟨"203.0.113.7"⟩]⟩) =
      Except.ok [⟨"203.0.113.9"⟩, ⟨"203.0.113.7"⟩] := by
  have h := (dnsLookupHost_a_records (fun _ => "SERVFAIL")
    ["nameserver 1.2.3.4"] "1.2.3.4" rfl
    ⟨0, [DNSAnswer.other 5, DNSAnswer.A ⟨"203.0.113.9"⟩,
      DNSAnswer.other 28, DNSAnswer.A ⟨"203.0.113.7"⟩]⟩).2.1 rfl
  simpa [answerToA] using h

theorem apiCallsOf_nil : apiCallsOf [] = [] := rfl

theorem apiCallsOf_append (a b : List Effect) :
    apiCallsOf (a ++ b) = apiCallsOf a ++ apiCallsOf b := by
  simp [apiCallsOf]

theorem apiCallsOf_determineIP (argIP : Option GoIP)
    (lookup : Except String GoIP) :
    apiCallsOf (determineIP argIP lookup).2 = [] := by
  cases argIP <;> simp [determineIP, apiCallsOf]

/-- C2: in change-only mode the authoritative lookup must return exactly one
A record — zero or several addresses abort the run before any provider API
call — and when the single address equals the desired IP the run ends
successfully with zero provider API calls. -/
theorem changeOnly_requires_single_current_A (env : MainEnv)
    (inp : ArgsInput) (args : Args) (ip : GoIP) (key : String)
    (effs0 : List Effect)
    (hargs : getArgs env.parseIP inp = Except.ok args)
    (honly : args.OnlyIfDifferent = true)
    (hkey : env.keyResult = Except.ok key)
    (hdet : determineIP args.IP env.lookupResult = (Except.ok ip, effs0))
    (ips : List GoIP)
    (hdns : dnsLookupHost env.rcodeToString env.resolvLines env.exchange =
      Except.ok ips) :
    (ips = [] →
       mainFlow env inp =
         (MainOutcome.noIPsFound, effs0 ++ [Effect.dnsQuery]) ∧
       apiCallsOf (mainFlow env inp).2 = []) ∧
    (ips.length > 1 →
       (mainFlow env inp).1 = MainOutcome.tooManyIPs ips.length ∧
       apiCallsOf (mainFlow env inp).2 = []) ∧
    (∀ cur, ips = [cur] → env.ipEqual cur ip = true →
       (mainFlow env inp).1 = MainOutcome.noopDone ∧
       apiCallsOf (mainFlow env inp).2 = []) := by
  have heffs0 : apiCallsOf effs0 = [] := by
    have h := apiCallsOf_determineIP args.IP env.lookupResult
    rw [hdet] at h
    exact h
  have hq : apiCallsOf (effs0 ++ [Effect.dnsQuery]) = [] := by
    rw [apiCallsOf_append, heffs0]
    rfl
  refine ⟨?_, ?_, ?_⟩
  · intro h
    subst h
    have hmain : mainFlow env inp =
        (MainOutcome.noIPsFound, effs0 ++ [Effect.dnsQuery]) := by
      simp [mainFlow, hargs, hkey, hdet, honly, hdns]
    exact ⟨hmain, by rw [hmain]; exact hq⟩
  · intro h
    cases ips with
    | nil => simp at h
    | cons cur more =>
      have hm : more.length > 0 := by
        simp only [List.length_cons] at h
        omega
      have hmain : mainFlow env inp =
          (MainOutcome.tooManyIPs (more.length + 1),
           effs0 ++ [Effect.dnsQuery]) := by
        simp [mainFlow, hargs, hkey, hdet, honly, hdns, hm]
      rw [hmain]
      exact ⟨by simp, hq⟩
  · intro cur hcur heq
    subst hcur
    have hmain : mainFlow env inp =
        (MainOutcome.noopDone, effs0 ++ [Effect.dnsQuery]) := by
      simp [mainFlow, hargs, hkey, hdet, honly, hdns, heq]
    rw [hmain]
    exact ⟨rfl, hq⟩

theorem changeOnly_requires_single_current_A_witness :
    (mainFlow
        { parseIP := fun s =>
            if s = "203.0.113.5" then some ⟨"203.0.113.5"⟩ else none,
          keyResult := Except.ok "k",
          lookupResult := Except.error "unused",
          ipEqual := fun a b => a.str == b.str,
          rcodeToString := fun _ => "",
          resolvLines := ["nameserver 1.2.3.4"],
          exchange := Except.ok ⟨0, [DNSAnswer.A ⟨"203.0.113.5"⟩]⟩,
          cf := okEnv [] (fun _ => []) (fun _ => Except.ok ()) }
        ⟨"a@b.c", "example.com", "host.example.com", "key",
          "203.0.113.5", true, false⟩).1 = MainOutcome.noopDone ∧
    apiCallsOf
        (mainFlow
          { parseIP := fun s =>
              if s = "203.0.113.5" then some ⟨"203.0.113.5"⟩ else none,
            keyResult := Except.ok "k",
            lookupResult := Except.error "unused",
            ipEqual := fun a b => a.str == b.str,
            rcodeToString := fun _ => "",
            resolvLines := ["nameserver 1.2.3.4"],
            exchange := Except.ok ⟨0, [DNSAnswer.A ⟨"203.0.113.5"⟩]⟩,
            cf := okEnv [] (fun _ => []) (fun _ => Except.ok ()) }
          ⟨"a@b.c", "example.com", "host.example.com", "key",
            "203.0.113.5", true, false⟩).2 = [] :=
  (changeOnly_requires_single_current_A
      { parseIP := fun s =>
          if s = "203.0.113.5" then some ⟨"203.0.113.5"⟩ else none,
        keyResult := Except.ok "k",
        lookupResult := Except.error "unused",
        ipEqual := fun a b => a.str == b.str,
        rcodeToString := fun _ => "",
        resolvLines := ["nameserver 1.2.3.4"],
        exchange := Except.ok ⟨0, [DNSAnswer.A ⟨"203.0.113.5"⟩]⟩,
        cf := okEnv [] (fun _ => []) (fun _ => Except.ok ()) }
      ⟨"a@b.c", "example.com", "host.example.com", "key", "203.0.113.5",
        true, false⟩
      ⟨"a@b.c", "example.com", "host.example.com", "key",
        some ⟨"203.0.113.5"⟩, true, false⟩
      ⟨"203.0.113.5"⟩ "k" [] rfl rfl rfl rfl
      [⟨"203.0.113.5"⟩] rfl).2.2 ⟨"203.0.113.5"⟩ rfl (by decide)

/-- C7: when an explicit IP is supplied, the desired IP used by the flow is
exactly that address and the external lookup path is never invoked; the
lookup is performed only when no explicit address is present. -/
theorem explicit_ip_skips_lookup (env : MainEnv) (inp : ArgsInput)
    (args : Args) (hargs : getArgs env.parseIP inp = Except.ok args) :
    (∀ ip, args.IP = some ip →
       determineIP args.IP env.lookupResult = (Except.ok ip, []) ∧
       Effect.icanhazipLookup ∉ (mainFlow env inp).2) ∧
    (∀ ip key, args.IP = some ip → env.keyResult = Except.ok key →
       args.OnlyIfDifferent = false →
       mainFlow env inp =
         (MainOutcome.updateFlow
            (updateIP env.cf args.Domain args.Hostname ip.str).1,
          (updateIP env.cf args.Domain args.Hostname ip.str).2.map
            Effect.api)) ∧
    (∀ key, args.IP = none → env.keyResult = Except.ok key →
       Effect.icanhazipLookup ∈ (mainFlow env inp).2) := by
  refine ⟨?_, ?_, ?_⟩
  · intro ip hip
    refine ⟨by simp [determineIP, hip], ?_⟩
    cases hkeyE : env.keyResult with
    | error e => simp [mainFlow, hargs, hkeyE]
    | ok k =>
      by_cases honly : args.OnlyIfDifferent
      · cases hdnsE : dnsLookupHost env.rcodeToString env.resolvLines
            env.exchange with
        | error e =>
          simp [mainFlow, hargs, hkeyE, hip, determineIP, honly, hdnsE]
        | ok ips =>
          cases ips with
          | nil =>
            simp [mainFlow, hargs, hkeyE, hip, determineIP, honly, hdnsE]
          | cons cur more =>
            by_cases hm : more.length > 0
            · simp [mainFlow, hargs, hkeyE, hip, determineIP, honly,
                hdnsE, hm]
            · by_cases heq : env.ipEqual cur ip
              · simp [mainFlow, hargs, hkeyE, hip, determineIP, honly,
                  hdnsE, hm, heq]
              · simp [mainFlow, hargs, hkeyE, hip, determineIP, honly,
                  hdnsE, hm, heq]
      · simp [mainFlow, hargs, hkeyE, hip, determineIP, honly]
  · intro ip key hip hkey honly
    simp [mainFlow, hargs, hkey, hip, determineIP, honly]
  · intro key hip hkey
    cases hlook : env.lookupResult with
    | error e =>
      simp [mainFlow, hargs, hkey, hip, determineIP, hlook]
    | ok ip =>
      by_cases honly : args.OnlyIfDifferent
      · cases hdnsE : dnsLookupHost env.rcodeToString env.resolvLines
            env.exchange with
        | error e =>
          simp [mainFlow, hargs, hkey, hip, determineIP, hlook, honly,
            hdnsE]
        | ok ips =>
          cases ips with
          | nil =>
            simp [mainFlow, hargs, hkey, hip, determineIP, hlook, honly,
              hdnsE]
          | cons cur more =>
            by_cases hm : more.length > 0
            · simp [mainFlow, hargs, hkey, hip, determineIP, hlook,
                honly, hdnsE, hm]
            · by_cases heq : env.ipEqual cur ip
              · simp [mainFlow, hargs, hkey, hip, determineIP, hlook,
                  honly, hdnsE, hm, heq]
              · simp [mainFlow, hargs, hkey, hip, determineIP, hlook,
                  honly, hdnsE, hm, heq]
      · simp [mainFlow, hargs, hkey, hip, determineIP, hlook, honly]

theorem explicit_ip_skips_lookup_witness :
    determineIP (some ⟨"203.0.113.5"⟩) (Except.error "unused") =
      (Except.ok ⟨"203.0.113.5"⟩, []) ∧
    Effect.icanhazipLookup ∉
      (mainFlow
        { parseIP := fun s =>
            if s = "203.0.113.5" then some ⟨"203.0.113.5"⟩ else none,
          keyResult := Except.ok "k",
          lookupResult := Except.error "unused",
          ipEqual := fun a b => a.str == b.str,
          rcodeToString := fun _ => "",
          resolvLines := ["nameserver 1.2.3.4"],
          exchange := Except.ok ⟨0, []⟩,
          cf := okEnv [] (fun _ => []) (fun _ => Except.ok ()) }
        ⟨"a@b.c", "example.com", "host.example.com", "key",
          "203.0.113.5", false, false⟩).2 :=
  (explicit_ip_skips_lookup
      { parseIP := fun s =>
          if s = "203.0.113.5" then some ⟨"203.0.113.5"⟩ else none,
        keyResult := Except.ok "k",
        lookupResult := Except.error "unused",
        ipEqual := fun a b => a.str == b.str,
        rcodeToString := fun _ => "",
        resolvLines := ["nameserver 1.2.3.4"],
        exchange := Except.ok ⟨0, []⟩,
        cf := okEnv [] (fun _ => []) (fun _ => Except.ok ()) }
      ⟨"a@b.c", "example.com", "host.example.com", "key", "203.0.113.5",
        false, false⟩
      ⟨"a@b.c", "example.com", "host.example.com", "key",
        some ⟨"203.0.113.5"⟩, false, false⟩
      rfl).1 ⟨"203.0.113.5"⟩ rfl

theorem string_blank_iff (s : String) : s.length = 0 ↔ s = "" := by
  constructor
  · intro h
    cases s with
    | mk data =>
      cases data with
      | nil => rfl
      | cons c cs => simp [String.length] at h
  · intro h
    subst h
    rfl

theorem string_length_pos (s : String) (h : s ≠ "") : 0 < s.length :=
  Nat.pos_of_ne_zero (fun hc => h ((string_blank_iff s).mp hc))

/-- C8: the List Zones query always carries a status value, defaulting to
active when blank and passing a given status through verbatim; name, order,
direction and match appear exactly when non-blank and page and per_page
exactly when positive, all values passed through verbatim. -/
theorem listZones_query_params (name status : String) (page perPage : Int)
    (order direction mtch : String) :
    (status = "" → ("status", "active") ∈
      listZonesValues name status page perPage order direction mtch) ∧
    (status ≠ "" → ("status", status) ∈
      listZonesValues name status page perPage order direction mtch) ∧
    (∀ v, ("name", v) ∈
        listZonesValues name status page perPage order direction mtch ↔
      (name ≠ "" ∧ v = name)) ∧
    (∀ v, ("page", v) ∈
        listZonesValues name status page perPage order direction mtch ↔
      (page > 0 ∧ v = toString page)) ∧
    (∀ v, ("per_page", v) ∈
        listZonesValues name status page perPage order direction mtch ↔
      (perPage > 0 ∧ v = toString perPage)) ∧
    (∀ v, ("order", v) ∈
        listZonesValues name status page perPage order direction mtch ↔
      (order ≠ "" ∧ v = order)) ∧
    (∀ v, ("direction", v) ∈
        listZonesValues name status page perPage order direction mtch ↔
      (direction ≠ "" ∧ v = direction)) ∧
    (∀ v, ("match", v) ∈
        listZonesValues name status page perPage order direction mtch ↔
      (mtch ≠ "" ∧ v = mtch)) ∧
    (listZonesReq name status page perPage order direction mtch).query =
      listZonesValues name status page perPage order direction mtch := by
  refine ⟨?_, ?_, ?_, ?_, ?_, ?_, ?_, ?_, rfl⟩
  · intro h
    simp [listZonesValues, string_blank_iff, h]
  · intro h
    simp [listZonesValues, string_blank_iff, h]
  · intro v
    by_cases hst : status = "" <;> by_cases hx : name = "" <;>
      simp [listZonesValues, string_blank_iff, hst, hx] <;>
      exact fun _ => string_length_pos _ hx
  · intro v
    by_cases hst : status = "" <;> by_cases hp : page > 0 <;>
      simp [listZonesValues, string_blank_iff, hst, hp]
  · intro v
    by_cases hst : status = "" <;> by_cases hp : perPage > 0 <;>
      simp [listZonesValues, string_blank_iff, hst, hp]
  · intro v
    by_cases hst : status = "" <;> by_cases hx : order = "" <;>
      simp [listZonesValues, string_blank_iff, hst, hx] <;>
      exact fun _ => string_length_pos _ hx
  · intro v
    by_cases hst : status = "" <;> by_cases hx : direction = "" <;>
      simp [listZonesValues, string_blank_iff, hst, hx] <;>
      exact fun _ => string_length_pos _ hx
  · intro v
    by_cases hst : status = "" <;> by_cases hx : mtch = "" <;>
      simp [listZonesValues, string_blank_iff, hst, hx] <;>
      exact fun _ => string_length_pos _ hx

theorem listZones_query_params_witness :
    ("status", "active") ∈
      listZonesValues "example.com" "" (-1) (-1) "" "" "" :=
  (listZones_query_params "example.com" "" (-1) (-1) "" "" "").1 rfl

/-- C9: `UpdateDNSRecord` validates nothing — it builds the URL from the
record's zone and record identifiers and issues the request even when they
are empty — while `ListDNSRecords` and `PurgeAllFiles` reject an empty zone
ID with an error before issuing any request. -/
theorem updateDNSRecord_no_validation :
    (∀ (http : HTTPReq → Except String GoResponse) (record : DNSRecord),
       (UpdateDNSRecord http record).2 = [updateDNSRecordReq record] ∧
       (updateDNSRecordReq record).path =
         ["zones", record.ZoneID, "dns_records", record.ID]) ∧
    ((UpdateDNSRecord (fun _ => Except.ok ⟨true, []⟩)
        ⟨"", "A", "h", "c", false, false, 1, false, "", "zn", "co",
          "mo"⟩).2).length = 1 ∧
    (∀ (http : HTTPReq → Except String ListDNSResponse)
        (recordType name content : String) (page perPage : Int)
        (order direction mtch : String),
       ListDNSRecords http "" recordType name content page perPage order
           direction mtch =
         (Except.error
            "you must provide a zone ID. Use ListZones() to find one",
          [])) ∧
    (∀ http : HTTPReq → Except String GoResponse,
       PurgeAllFiles http "" =
         (Except.error "you must provide a zone ID", [])) := by
  refine ⟨?_, by decide, ?_, ?_⟩
  · intro http record
    refine ⟨?_, rfl⟩
    cases h : http (updateDNSRecordReq record) with
    | error e => simp [UpdateDNSRecord, h]
    | ok resp =>
      by_cases hs : resp.success <;> simp [UpdateDNSRecord, h, hs]
  · intro http recordType name content page perPage order direction mtch
    simp [ListDNSRecords]
  · intro http
    simp [PurgeAllFiles]

theorem updateIP_update_calls_content (env : CFEnv)
    (domain hostname ipStr : String) :
    ∀ rec ∈ updatesOf (updateIP env domain hostname ipStr).2,
      rec.Content = ipStr := by
  intro rec hrec
  simp only [updateIP] at hrec
  cases hz : env.listZonesResp with
  | error e =>
    rw [hz] at hrec
    simp [updatesOf] at hrec
  | ok zones =>
    rw [hz] at hrec
    cases hc : (collectMatching env hostname zones).1 with
    | error e =>
      simp only [hz, hc, updatesOf_cons_listZones,
        updatesOf_collectMatching] at hrec
      simp at hrec
    | ok matching =>
      cases matching with
      | nil =>
        simp only [hc, updatesOf_cons_listZones,
          updatesOf_collectMatching] at hrec
        simp at hrec
      | cons r rest =>
        by_cases hlen : rest.length > 0
        · simp only [hc, hlen, if_true, updatesOf_cons_listZones,
            updatesOf_collectMatching] at hrec
          simp at hrec
        · by_cases hcc : r.Content == ipStr
          · simp only [hc, hlen, if_false, hcc, if_true,
              updatesOf_cons_listZones, updatesOf_collectMatching] at hrec
            simp [hlen] at hrec
          · cases hupd : env.updateDNSRecordResp
                { r with Content := ipStr } with
            | error e =>
              simp [hc, hlen, hcc, hupd, updatesOf_cons_listZones,
                updatesOf_append, updatesOf_collectMatching,
                updatesOf_cons_update, updatesOf_nil] at hrec
              subst hrec
              rfl
            | ok u =>
              simp [hc, hlen, hcc, hupd, updatesOf_cons_listZones,
                updatesOf_append, updatesOf_collectMatching,
                updatesOf_cons_update, updatesOf_nil] at hrec
              subst hrec
              rfl

/-- C10: argument parsing accepts any value the IP parser accepts, with no
address-family check of its own — any parsed address, an IPv6 one included,
is stored and its text becomes the content written by the update flow —
while a non-empty flag value the parser rejects is a fatal configuration
error, at which point the run performs no effects at all. -/
theorem getArgs_accepts_any_parsed_ip (parseIP : String → Option GoIP)
    (inp : ArgsInput) (he : inp.email ≠ "") (hd : inp.domain ≠ "")
    (hh : inp.hostname ≠ "") (hk : inp.keyFile ≠ "")
    (hip : inp.ipString ≠ "") :
    (∀ ip : GoIP, parseIP inp.ipString = some ip →
       getArgs parseIP inp =
         Except.ok ⟨inp.email, inp.domain, inp.hostname, inp.keyFile,
           some ip, inp.onlyIfDifferent, inp.verbose⟩) ∧
    (parseIP inp.ipString = none →
       getArgs parseIP inp = Except.error "Invalid IP address.") ∧
    (∀ (env : MainEnv) (inp2 : ArgsInput) (e : String),
       getArgs env.parseIP inp2 = Except.error e →
       mainFlow env inp2 = (MainOutcome.argsError e, [])) ∧
    (∀ (ip : GoIP) (env : CFEnv) (domain hostname : String),
       ∀ rec ∈ updatesOf (updateIP env domain hostname ip.str).2,
         rec.Content = ip.str) := by
  refine ⟨?_, ?_, ?_, ?_⟩
  · intro ip hparse
    simp [getArgs, string_blank_iff, he, hd, hh, hk,
      string_length_pos _ hip, hparse]
  · intro hparse
    simp [getArgs, string_blank_iff, he, hd, hh, hk,
      string_length_pos _ hip, hparse]
  · intro env inp2 e hargs
    simp [mainFlow, hargs]
  · intro ip env domain hostname rec hrec
    exact updateIP_update_calls_content env domain hostname ip.str rec hrec

theorem getArgs_accepts_any_parsed_ip_witness :
    getArgs
        (fun s => if s = "2001:db8::1" then some ⟨"2001:db8::1"⟩ else none)
        ⟨"a@b.c", "example.com", "host.example.com", "key",
          "2001:db8::1", false, false⟩ =
      Except.ok ⟨"a@b.c", "example.com", "host.example.com", "key",
        some ⟨"2001:db8::1"⟩, false, false⟩ :=
  (getArgs_accepts_any_parsed_ip
      (fun s => if s = "2001:db8::1" then some ⟨"2001:db8::1"⟩ else none)
      ⟨"a@b.c", "example.com", "host.example.com", "key", "2001:db8::1",
        false, false⟩
      (by decide) (by decide) (by decide) (by decide) (by decide)).1
    ⟨"2001:db8::1"⟩ (by decide)
